import Mathlib

/-!
Verification of the tailssh SSH-server core (ssh/tailssh/tailssh.go).

This file shallowly embeds the policy evaluation engine, the public-key
resolution cache, the session registry, the action resolver, the session
runtime exit handling, the policy-revalidation path and the recording
writer of the source, and proves or refutes the frozen claims about them.

Conventions of the embedding:
- machine time (`time.Time` / `time.Duration`) is modelled as `Int` seconds;
  `t1.Before(t2)` is `t1 < t2` and `t1.Sub(t2)` is `t1 - t2`;
- Go `nil` pointers and `nil` maps/slices are modelled with `Option`;
- Go maps are modelled either as association lists (where the map's size
  matters, as in the public-key cache) or as functions to `Option`
  (the session registry);
- `netaddr.IP` values are modelled by their canonical string form, so
  `netaddr.ParseIP` on a canonical form is the identity;
- external collaborators (`lb.WhoIs`, `tsaddr.IsTailscaleIP`, the HTTP
  client) are oracles supplied as function-valued fields or arguments;
- fallible Go calls return `Except`/`Option` values.
-/

namespace Tailssh

/-- Seconds since an arbitrary epoch, modelling `time.Time` and `time.Duration`. -/
abbrev Time := Int

/-- Model of `netaddr.IPPort`: an IP in canonical string form plus a port. -/
structure IPPort where
  ip : String
  port : Nat
deriving DecidableEq

/-- Model of `gossh.PublicKey`: its `Type()` string and its `Marshal()` wire bytes. -/
structure PublicKey where
  keyType : String
  marshal : List Nat
deriving DecidableEq

/-- Model of `tailcfg.Node`; only the field read by the embedded code. -/
structure Node where
  stableID : String
deriving DecidableEq

/-- Model of `tailcfg.UserProfile`; only the field read by the embedded code. -/
structure UserProfile where
  loginName : String
deriving DecidableEq

/-- Model of `tailcfg.SSHAction`. Fields not read by the embedded functions
(`AllowAgentForwarding`, `AllowLocalPortForwarding`, `SesssionDuration`) are
omitted; the three decision fields and the message are kept. -/
structure SSHAction where
  accept : Bool
  reject : Bool
  holdAndDelegate : String
  message : String
deriving DecidableEq

/-- Model of `tailcfg.SSHPrincipal`. The zero `tailcfg.StableNodeID` is `""`. -/
structure SSHPrincipal where
  node : String
  nodeIP : String
  userLogin : String
  any : Bool
  pubKeys : List String
deriving DecidableEq

/-- Model of `tailcfg.SSHRule`. `sshUsers = none` models a nil Go map;
list entries of `principals` model the `[]*tailcfg.SSHPrincipal` slice whose
elements may be nil, and `action = none` models a nil `*tailcfg.SSHAction`. -/
structure SSHRule where
  ruleExpires : Option Time
  principals : List (Option SSHPrincipal)
  sshUsers : Option (List (String × String))
  action : Option SSHAction

/-- Model of `tailcfg.SSHPolicy`: the ordered rule slice, entries possibly nil. -/
structure SSHPolicy where
  rules : List (Option SSHRule)

/-- Model of `sshConnInfo`. The `fetchPublicKeysURL` field is the function
value stored in the struct (`nil` modelled by `none`); fetching may fail. -/
structure SSHConnInfo where
  now : Time
  fetchPublicKeysURL : Option (String → Except String (List String))
  sshUser : String
  src : IPPort
  dst : IPPort
  node : Option Node
  uprof : Option UserProfile
  pubKey : Option PublicKey

/-- Character-level search for `strings.Cut`: the part before the first
occurrence of `sep`, the part after it, and whether `sep` occurred. -/
def goCutChars (s sep : List Char) : List Char × List Char × Bool :=
  if sep.isPrefixOf s then ([], s.drop sep.length, true)
  else
    match s with
    | [] => ([], [], false)
    | c :: rest =>
      match goCutChars rest sep with
      | (b, a, true) => (c :: b, a, true)
      | _ => (c :: rest, [], false)

/-- Model of `strings.Cut(s, sep)`: the part before the first occurrence of
`sep`, the part after it, and whether `sep` occurred. -/
def goCut (s sep : String) : String × String × Bool :=
  match goCutChars s.toList sep.toList with
  | (b, a, f) => (String.mk b, String.mk a, f)

/-- Model of `strings.Replace(s, old, new, -1)`. -/
def goReplaceAll (s old new : String) : String :=
  String.intercalate new (s.splitOn old)

/-- Model of `strings.HasPrefix(s, pre)` (the source's `strings.HasPrefix`
and the `https://` checks), computed on the character lists. -/
def goHasPrefix (s pre : String) : Bool :=
  pre.toList.isPrefixOf s.toList

/-- Value of a base64 alphabet character, per RFC 4648 as used by
`encoding/base64.StdEncoding`. -/
def b64Val (c : Char) : Option Nat :=
  if 'A' ≤ c && c ≤ 'Z' then some (c.toNat - 65)
  else if 'a' ≤ c && c ≤ 'z' then some (c.toNat - 97 + 26)
  else if '0' ≤ c && c ≤ '9' then some (c.toNat - 48 + 52)
  else if c == '+' then some 62
  else if c == '/' then some 63
  else none

/-- Decoding of base64 in four-character quanta, with Go's lenient error
behaviour: `base64.StdEncoding.DecodeString` returns the bytes of the
complete quanta decoded before the first irregularity together with an
error, and `pubKeyMatchesAuthorizedKey` discards the error, so the model
returns exactly those bytes. Terminal `=` padding produces the one or two
bytes of the final short quantum. -/
def base64DecodeQuanta : List Char → List Nat
  | c1 :: c2 :: c3 :: c4 :: rest =>
    match b64Val c1, b64Val c2 with
    | some v1, some v2 =>
      if c3 == '=' && c4 == '=' && rest.isEmpty then
        [v1 * 4 + v2 / 16]
      else
        match b64Val c3 with
        | some v3 =>
          if c4 == '=' && rest.isEmpty then
            [v1 * 4 + v2 / 16, (v2 % 16) * 16 + v3 / 4]
          else
            match b64Val c4 with
            | some v4 =>
              (v1 * 4 + v2 / 16) :: ((v2 % 16) * 16 + v3 / 4) ::
                ((v3 % 4) * 64 + v4) :: base64DecodeQuanta rest
            | none => []
        | none => []
    | _, _ => []
  | _ => []

/-- Model of `base64.StdEncoding.DecodeString` with the error discarded, as
done in `pubKeyMatchesAuthorizedKey`. Go's decoder skips newline characters. -/
def base64DecodeLenient (s : String) : List Nat :=
  base64DecodeQuanta (s.toList.filter (fun c => c != '\r' && c != '\n'))

/-- Embedding of `mapLocalUser` (tailssh.go): look up the requested user in
the rule's user map, fall back to the `"*"` key, and interpret the value
`"="` as the requested name itself. A nil map (`none`) yields `""`. -/
def mapLocalUser (ruleSSHUsers : Option (List (String × String))) (reqSSHUser : String) : String :=
  let m := ruleSSHUsers.getD []
  let v := match m.lookup reqSSHUser with
           | some v => v
           | none => (m.lookup "*").getD ""
  if v == "=" then reqSSHUser else v

/-- Embedding of `sshConnInfo.ruleExpired`: a rule with a `RuleExpires`
timestamp strictly before `ci.now` is expired. -/
def ruleExpired (ci : SSHConnInfo) (r : SSHRule) : Bool :=
  match r.ruleExpires with
  | none => false
  | some t => t < ci.now

/-- Embedding of `principalMatchesTailscaleIdentity`: the disjunction of the
four identity predicates (`Any`, stable node id, node IP, user login),
written as the source's sequence of early-`true` returns. `netaddr.ParseIP`
is the identity on the canonical IP strings of the model. -/
def principalMatchesTailscaleIdentity (p : SSHPrincipal) (ci : SSHConnInfo) : Bool :=
  if p.any then true
  else if p.node != "" &&
          (match ci.node with
           | some n => p.node == n.stableID
           | none => false) then true
  else if p.nodeIP != "" && p.nodeIP == ci.src.ip then true
  else if p.userLogin != "" &&
          (match ci.uprof with
           | some u => u.loginName == p.userLogin
           | none => false) then true
  else false

/-- Resolution step of `principalMatchesPubKey`: when the key list is exactly
one entry starting with `https://`, the lines come from the fetcher (`none`
on a nil fetcher or a fetch error, both of which make the caller return
false); any other list is used literally. -/
def resolvePubKeys (pubKeys : List String)
    (fetch : Option (String → Except String (List String))) : Option (List String) :=
  match pubKeys with
  | [u] =>
    if goHasPrefix u "https://" then
      match fetch with
      | none => none
      | some f => (f u).toOption
    else some [u]
  | ks => some ks

/-- Embedding of `pubKeyMatchesAuthorizedKey`: cut the authorized-key line at
the first space into key type and rest, require the client key's type to
equal the first token, base64-decode the second token, and require a
non-empty decode byte-equal to the client key's wire marshaling. -/
def pubKeyMatchesAuthorizedKey (k : PublicKey) (wantKey : String) : Bool :=
  match goCut wantKey " " with
  | (wantKeyType, rest, true) =>
    if k.keyType != wantKeyType then false
    else
      let wantKeyData := base64DecodeLenient (goCut rest " ").1
      !wantKeyData.isEmpty && wantKeyData == k.marshal
  | (_, _, false) => false

/-- Embedding of `principalMatchesPubKey`: an empty key list matches; with a
non-empty list a client key must be present, the list is resolved (singleton
`https://` entry through the fetcher, anything else literally), and some
resolved line must match the client key. -/
def principalMatchesPubKey (p : SSHPrincipal) (ci : SSHConnInfo) : Bool :=
  if p.pubKeys.isEmpty then true
  else
    match ci.pubKey with
    | none => false
    | some k =>
      match resolvePubKeys p.pubKeys ci.fetchPublicKeysURL with
      | none => false
      | some pubKeys => pubKeys.any (pubKeyMatchesAuthorizedKey k)

/-- Embedding of `principalMatches`: identity predicate and key predicate. -/
def principalMatches (p : SSHPrincipal) (ci : SSHConnInfo) : Bool :=
  principalMatchesTailscaleIdentity p ci && principalMatchesPubKey p ci

/-- Embedding of `anyPrincipalMatches`: nil principals are skipped. -/
def anyPrincipalMatches (ps : List (Option SSHPrincipal)) (ci : SSHConnInfo) : Bool :=
  ps.any (fun p? =>
    match p? with
    | none => false
    | some p => principalMatches p ci)

/-- The internal match errors of `matchRule` (`errNilRule`, `errNilAction`,
`errRuleExpired`, `errUserMatch`, `errPrincipalMatch`). -/
inductive MatchErr where
  | nilRule
  | nilAction
  | ruleExpired
  | userMatch
  | principalMatch
deriving DecidableEq

/-- Embedding of `matchRule`: nil rule, nil action and expired rules fail;
unless the action is a Reject with a nil user map, the user mapping must
yield a non-empty local user; and some principal must match. -/
def matchRule (r? : Option SSHRule) (ci : SSHConnInfo) : Except MatchErr (SSHAction × String) :=
  match r? with
  | none => .error .nilRule
  | some r =>
    match r.action with
    | none => .error .nilAction
    | some act =>
      if ruleExpired ci r then .error .ruleExpired
      else
        let needUser := !act.reject || r.sshUsers.isSome
        let localUser := if needUser then mapLocalUser r.sshUsers ci.sshUser else ""
        if needUser && localUser == "" then .error .userMatch
        else if !anyPrincipalMatches r.principals ci then .error .principalMatch
        else .ok (act, localUser)

/-- Whether `matchRule` succeeds on a rule. -/
def matchRuleOk (r? : Option SSHRule) (ci : SSHConnInfo) : Bool :=
  match matchRule r? ci with
  | .ok _ => true
  | .error _ => false

/-- The rule-iteration loop of `evalSSHPolicy`: first rule whose `matchRule`
succeeds wins. -/
def evalRules (rules : List (Option SSHRule)) (ci : SSHConnInfo) :
    Option SSHAction × String × Bool :=
  match rules with
  | [] => (none, "", false)
  | r :: rest =>
    match matchRule r ci with
    | .ok (a, localUser) => (some a, localUser, true)
    | .error _ => evalRules rest ci

/-- Embedding of `evalSSHPolicy`. -/
def evalSSHPolicy (pol : SSHPolicy) (ci : SSHConnInfo) : Option SSHAction × String × Bool :=
  evalRules pol.rules ci

/-- Model of the `server` environment as seen by policy evaluation.
`sshPolicy` is the result of the `sshPolicy()` accessor (netmap policy or
debug-file policy collapsed into one optional value); `whoIs` models
`lb.WhoIs`; `isTailscaleIP` models `tsaddr.IsTailscaleIP` on canonical IP
strings; `now` models `srv.now()`; `fetchPublicKeysURL` is the server's
public-key fetching method viewed as an oracle (its cache-backed
implementation is embedded separately below). -/
structure Server where
  sshPolicy : Option SSHPolicy
  whoIs : IPPort → Option (Node × UserProfile)
  isTailscaleIP : String → Bool
  now : Time
  fetchPublicKeysURL : String → Except String (List String)

/-- Embedding of `server.evaluatePolicy`: returns
`(action, connInfo, localUser, error)`. The conn info is built and returned
(also on the final access-denied error) once the remote identity resolves. -/
def evaluatePolicy (srv : Server) (sshUser : String) (localAddr remoteAddr : IPPort)
    (pubKey : Option PublicKey) :
    Option SSHAction × Option SSHConnInfo × String × Option String :=
  match srv.sshPolicy with
  | none => (none, none, "", some "tailssh: rejecting connection; no SSH policy")
  | some pol =>
    if !srv.isTailscaleIP remoteAddr.ip then
      (none, none, "", some "tailssh: rejecting non-Tailscale remote address")
    else if !srv.isTailscaleIP localAddr.ip then
      (none, none, "", some "tailssh: rejecting non-Tailscale remote address")
    else
      match srv.whoIs remoteAddr with
      | none => (none, none, "", some "unknown Tailscale identity from src")
      | some (node, uprof) =>
        let ci : SSHConnInfo :=
          { now := srv.now
            fetchPublicKeysURL := some srv.fetchPublicKeysURL
            sshUser := sshUser
            src := remoteAddr
            dst := localAddr
            node := some node
            uprof := some uprof
            pubKey := pubKey }
        match evalSSHPolicy pol ci with
        | (some a, localUser, true) => (some a, some ci, localUser, none)
        | _ => (none, some ci, "", some "ssh: access denied")

/-- The test `a.Accept || a.HoldAndDelegate != ""` applied to the action
returned by `evaluatePolicy`; in the source the action pointer is non-nil
whenever the error is nil, so the `none` case is unreachable there. -/
def actionAllowsOpt (a? : Option SSHAction) : Bool :=
  match a? with
  | some a => a.accept || a.holdAndDelegate != ""
  | none => false

/-- Inner loop of `requiresPubKey` over one rule: skip expired rules and
rules whose user mapping yields no local user, then look for a principal
that matches the Tailscale identity and declares a non-empty `PubKeys` list.
The source would dereference a nil rule or principal here; the model is
stated for policies without nil entries and skips them. -/
def ruleNeedsPubKey (ci : SSHConnInfo) (sshUser : String) (r? : Option SSHRule) : Bool :=
  match r? with
  | none => false
  | some r =>
    if ruleExpired ci r then false
    else if mapLocalUser r.sshUsers sshUser == "" then false
    else r.principals.any (fun p? =>
      match p? with
      | none => false
      | some p => principalMatchesTailscaleIdentity p ci && !p.pubKeys.isEmpty)

/-- Embedding of `server.requiresPubKey`: with no policy, `false`; if
evaluating the policy with a nil public key already yields an Accept or
HoldAndDelegate action, `false`; if no conn info was resolved, `false`;
otherwise scan the rules for one that would require a public key. -/
def requiresPubKey (srv : Server) (sshUser : String) (localAddr remoteAddr : IPPort) : Bool :=
  match srv.sshPolicy with
  | none => false
  | some pol =>
    let out := evaluatePolicy srv sshUser localAddr remoteAddr none
    if out.2.2.2.isNone && actionAllowsOpt out.1 then false
    else
      match out.2.1 with
      | none => false
      | some ci => pol.rules.any (ruleNeedsPubKey ci sshUser)

/-- Modelled from the spec: the `sshContext` error type of the repository is
not under `src/`. `userVisible msg cause` models `userVisibleError`, the
wrapper whose user-visible message is written to the session on
termination; `plain` models any other context error. -/
inductive CtxError where
  | userVisible (msg : String) (cause : String)
  | plain (msg : String)
deriving DecidableEq

/-- Modelled from the spec: `SSHTerminationError.SSHTerminationMessage`
(declared outside `src/`) returns the user-visible message carried by a
`userVisibleError`; other errors carry none. -/
def sshTerminationMessage : CtxError → Option String
  | .userVisible msg _ => some msg
  | .plain _ => none

/-- The per-session state read by `checkStillValid`: the stored conn-info
fields it passes back to `evaluatePolicy`, and `ss.localUser.Username`. -/
structure SSHSessionModel where
  sshUser : String
  src : IPPort
  dst : IPPort
  pubKey : Option PublicKey
  localUserName : String

/-- Embedding of `sshSession.checkStillValid`: re-evaluate the policy with
the stored conn info; the session stays valid iff there is no error, the
action is Accept or HoldAndDelegate, and the local user is unchanged;
otherwise the session context is closed with
`userVisibleError{fmt.Sprintf("Access revoked.\n"), context.Canceled}`. -/
def checkStillValid (srv : Server) (ss : SSHSessionModel) : Option CtxError :=
  let out := evaluatePolicy srv ss.sshUser ss.src ss.dst ss.pubKey
  if out.2.2.2.isNone && actionAllowsOpt out.1 && out.2.2.1 == ss.localUserName then
    none
  else
    some (CtxError.userVisible "Access revoked.\n" "context canceled")

/-- Observable session-teardown events emitted by
`killProcessOnContextDone`. -/
inductive SessionEvent where
  | stderrWrite (s : String)
  | killProcess
deriving DecidableEq

/-- Embedding of the body of `sshSession.killProcessOnContextDone` once the
context is done with error `e`: if the error carries a non-empty termination
message `msg`, write `"\r\n\r\n" + msg + "\r\n\r\n"` to the client's stderr,
then kill the child process. -/
def killProcessOnContextDone (e : CtxError) : List SessionEvent :=
  (match sshTerminationMessage e with
   | some msg => if msg != "" then [SessionEvent.stderrWrite ("\r\n\r\n" ++ msg ++ "\r\n\r\n")] else []
   | none => []) ++ [SessionEvent.killProcess]

/-- Embedding of `sshSession.resolveTerminalAction`. The successive results
of `fetchSSHAction` are supplied as a list; an exhausted list models the
fetch failing because the 30-minute budget elapsed or the session context
was cancelled (in the source the loop always ends this way if no terminal
action arrives). Returns the terminal action or an error, together with the
messages written to the client's stderr (each with `\n` replaced by
`\r\n`). -/
def resolveTerminalAction (fetches : List (Except String SSHAction)) (action : SSHAction) :
    Except String SSHAction × List String :=
  let msgs := if action.message != "" then [goReplaceAll action.message "\n" "\r\n"] else []
  if action.accept || action.reject then (.ok action, msgs)
  else if action.holdAndDelegate == "" then
    (.error "reached Action that lacked Accept, Reject, and HoldAndDelegate", msgs)
  else
    match fetches with
    | [] => (.error "fetching SSHAction: context done or timeout elapsed", msgs)
    | .error e :: _ => (.error ("fetching SSHAction: " ++ e), msgs)
    | .ok a :: rest =>
      let out := resolveTerminalAction rest a
      (out.1, msgs ++ out.2)

/-- The two identifiers of an `sshSession` that the registry indexes:
`idH` (the RFC4253 section 8 hash) and `sharedID`. Registry records are
identified by this pair in the model. -/
structure SessionIDs where
  idH : String
  sharedID : String
deriving DecidableEq

/-- The registry state: the two Go maps `activeSessionByH` and
`activeSessionBySharedID`, modelled as functions to `Option`. -/
structure Registry where
  byH : String → Option SessionIDs
  byS : String → Option SessionIDs

/-- Point update of a registry map (`mapSet` for `some`, `delete` for
`none`). -/
def regUpd (f : String → Option SessionIDs) (k : String) (v : Option SessionIDs) :
    String → Option SessionIDs :=
  fun q => if q = k then v else f q

/-- The registry with both maps empty (the zero value of the Go maps). -/
def emptyRegistry : Registry :=
  ⟨fun _ => none, fun _ => none⟩

/-- Embedding of `server.startSession`: panic (modelled as `Except.error`)
on an empty `idH`, an empty `sharedID`, or a duplicate of either id;
otherwise insert the session into both maps. -/
def startSession (st : Registry) (ss : SessionIDs) : Except String Registry :=
  if ss.idH = "" then .error "empty idH"
  else if ss.sharedID = "" then .error "empty sharedID"
  else if (st.byH ss.idH).isSome then .error "dup idH"
  else if (st.byS ss.sharedID).isSome then .error "dup sharedID"
  else .ok ⟨regUpd st.byH ss.idH (some ss), regUpd st.byS ss.sharedID (some ss)⟩

/-- Embedding of `server.endSession`: delete the session's keys from both
maps. -/
def endSession (st : Registry) (ss : SessionIDs) : Registry :=
  ⟨regUpd st.byH ss.idH none, regUpd st.byS ss.sharedID none⟩

/-- The registry invariant: every map entry is keyed by its record's own id,
and a record is present under its `idH` iff it is present under its
`sharedID` (present in both indices or in neither). -/
def RegInv (st : Registry) : Prop :=
  (∀ k ss, st.byH k = some ss → ss.idH = k) ∧
  (∀ k ss, st.byS k = some ss → ss.sharedID = k) ∧
  (∀ ss, st.byH ss.idH = some ss ↔ st.byS ss.sharedID = some ss)

/-- Model of `pubKeyCacheEntry`. -/
structure PubKeyCacheEntry where
  lines : List String
  etag : String
  atTime : Time
deriving DecidableEq

/-- `pubKeyCacheDuration`: how long non-empty public keys are cached (one
minute, in seconds). -/
def pubKeyCacheDuration : Time := 60

/-- `pubKeyCacheEmptyDuration`: how long empty responses are cached
(15 seconds). -/
def pubKeyCacheEmptyDuration : Time := 15

/-- The server state touched by the public-key fetch path: the
`fetchPublicKeysCache` map (an association list, so its size is observable)
and the current time `srv.now()`. -/
structure CacheState where
  cache : List (String × PubKeyCacheEntry)
  now : Time
deriving DecidableEq

/-- Association-list lookup, modelling a Go map read. -/
def lookupAssoc (m : List (String × PubKeyCacheEntry)) (k : String) : Option PubKeyCacheEntry :=
  match m with
  | [] => none
  | (q, v) :: rest => if q = k then some v else lookupAssoc rest k

/-- Association-list insertion-or-replacement, modelling `mapSet`. -/
def mapSetAssoc (m : List (String × PubKeyCacheEntry)) (k : String) (v : PubKeyCacheEntry) :
    List (String × PubKeyCacheEntry) :=
  match m with
  | [] => [(k, v)]
  | (q, w) :: rest => if q = k then (k, v) :: rest else (q, w) :: mapSetAssoc rest k v

/-- Embedding of `server.fetchPublicKeysURLCached`: when the cache holds
more than 50 entries, delete every entry whose timestamp is before
`now + 10 * pubKeyCacheDuration`; then look the URL up and report the entry
together with whether it is still fresh (`now - at` under one minute for
non-empty lines, 15 seconds for empty lines). A missing key yields the zero
`pubKeyCacheEntry` and `false`. Returns the possibly-cleaned state. -/
def fetchPublicKeysURLCached (st : CacheState) (url : String) :
    (PubKeyCacheEntry × Bool) × CacheState :=
  let m :=
    if st.cache.length > 50 then
      let tooOld := st.now + pubKeyCacheDuration * 10
      st.cache.filter (fun kv => !(kv.2.atTime < tooOld : Bool))
    else st.cache
  let st1 : CacheState := { st with cache := m }
  match lookupAssoc m url with
  | none => ((⟨[], "", 0⟩, false), st1)
  | some ce =>
    let maxAge := if ce.lines.length = 0 then pubKeyCacheEmptyDuration else pubKeyCacheDuration
    ((ce, st.now - ce.atTime < maxAge), st1)

/-- An HTTP response as consumed by `fetchPublicKeysURL`: status code, body
(a string of at most 4 KiB is read from it) and `Etag` header. -/
structure HTTPResponse where
  status : Nat
  body : String
  etag : String
deriving DecidableEq

/-- The body-to-lines step of the 200 case of `fetchPublicKeysURL`: read at
most 4 KiB, trim space, and split non-empty text on newlines. -/
def bodyToLines (body : String) : List String :=
  let s := (String.mk (body.toList.take 4096)).trim
  if s == "" then [] else s.splitOn "\n"

/-- The result of one call to the embedded `fetchPublicKeysURL`: the
returned lines and error, plus whether an HTTP request was actually issued
(false when the answer came from the cache or the URL was rejected). -/
structure FetchResult where
  lines : List String
  err : Option String
  fetched : Bool
deriving DecidableEq

/-- Embedding of `server.fetchPublicKeysURL`. The HTTP exchange is an
oracle argument `resp` (transport error or response). Non-`https://` URLs
are rejected without fetching; a fresh cache entry answers without
fetching; a transport error returns without touching the cache; otherwise
the status decides lines/etag/error (304 reuses the cached entry, 200 reads
the body, anything else is an error with empty lines and etag), and the
cache entry for the URL is rewritten with the current timestamp. -/
def fetchPublicKeysURL (st : CacheState) (url : String)
    (resp : Except String HTTPResponse) : FetchResult × CacheState :=
  if !goHasPrefix url "https://" then (⟨[], some "invalid URL scheme", false⟩, st)
  else
    let ((ce, ok), st1) := fetchPublicKeysURLCached st url
    if ok then (⟨ce.lines, none, false⟩, st1)
    else
      match resp with
      | .error e => (⟨[], some e, true⟩, st1)
      | .ok res =>
        let (lines, etag, err) :=
          if res.status = 304 then (ce.lines, ce.etag, (none : Option String))
          else if res.status = 200 then (bodyToLines res.body, res.etag, none)
          else ([], "", some "unexpected status")
        let st2 : CacheState := { st1 with cache := mapSetAssoc st1.cache url ⟨lines, etag, st1.now⟩ }
        (⟨lines, err, true⟩, st2)

/-- State of a `recording`: the cast file contents, or `none` once closed. -/
structure RecordingState where
  out : Option (List String)
deriving DecidableEq

/-- Model of the cast line `json.Marshal([elapsed, dir, payload]) + "\n"`
built in `loggingWriter.Write`. The exact JSON rendering is irrelevant to
the embedded control flow; `json.Marshal` cannot fail on these argument
types, so no error path exists. -/
def castLine (elapsedSeconds : Nat) (dir : String) (p : String) : String :=
  "[" ++ toString elapsedSeconds ++ "," ++ dir ++ "," ++ p ++ "]"

/-- Embedding of `loggingWriter.writeCastLine`: fails with "logger closed"
when the file is closed, otherwise appends the line to the file. -/
def writeCastLine (r : RecordingState) (j : String) : Option String × RecordingState :=
  match r.out with
  | none => (some "logger closed", r)
  | some content => (none, ⟨some (content ++ [j])⟩)

/-- Embedding of `loggingWriter.Write`: build the cast line, try to record
it, and on a recording failure return `(0, nil)` without writing to the
underlying writer; otherwise forward the payload downstream (the downstream
writer is the SSH session and is modelled as always succeeding). Result:
`((n, err), recording state, downstream writes)`. -/
def loggingWriterWrite (r : RecordingState) (elapsed : Nat) (dir : String)
    (downstream : List String) (p : String) :
    (Nat × Option String) × RecordingState × List String :=
  let j := castLine elapsed dir p
  match writeCastLine r j with
  | (some _, r1) => ((0, none), r1, downstream)
  | (none, r1) => ((p.length, none), r1, downstream ++ [p])

/-- The error returned by `cmd.Wait` in `sshSession.run`: `nil`, an
`exec.ExitError` carrying the child's `ProcessState.ExitCode()`, or some
other error. -/
inductive WaitError where
  | exitError (code : Int)
  | other (msg : String)
deriving DecidableEq

/-- Embedding of the exit-code publication at the end of `sshSession.run`:
`ss.Exit(0)` when `Wait` returned nil, `ss.Exit(code)` with the child's real
exit code on an `exec.ExitError`, and `ss.Exit(1)` on any other error. -/
def runWaitExitCode (waitResult : Option WaitError) : Int :=
  match waitResult with
  | none => 0
  | some (.exitError code) => code
  | some (.other _) => 1

/-! ## Theorems about the claims -/

/-- C8: when the child's Wait returns, the published exit code is 0 on a nil
error, the child's real exit code on an `exec.ExitError`, and 1 on any other
error. -/
theorem runWaitExitCode_spec :
    runWaitExitCode none = 0 ∧
    (∀ c, runWaitExitCode (some (WaitError.exitError c)) = c) ∧
    (∀ m, runWaitExitCode (some (WaitError.other m)) = 1) :=
  ⟨rfl, fun _ => rfl, fun _ => rfl⟩

/-- C2 counterexample: with the recording file closed, a write of `"a"`
through the recording-wrapped stream forwards nothing downstream and reports
0 bytes written, contradicting the claim that the payload bytes are
forwarded and the write reports success. -/
theorem loggingWriterWrite_closed_counterexample :
    (loggingWriterWrite ⟨none⟩ 0 "o" [] "a").2.2 = [] ∧
    (loggingWriterWrite ⟨none⟩ 0 "o" [] "a").1.1 = 0 ∧
    ([] : List String) ≠ ["a"] ∧
    (0 : Nat) ≠ "a".length := by
  refine ⟨rfl, rfl, by decide, by decide⟩

/-- C2 amended: once the recording file has been closed, a write through the
recording-wrapped stream drops the cast log line, skips the underlying byte
write entirely (the downstream writes are unchanged), and returns
`(0, nil)`. -/
theorem loggingWriterWrite_closed_drops_everything (elapsed : Nat) (dir : String)
    (downstream : List String) (p : String) :
    loggingWriterWrite ⟨none⟩ elapsed dir downstream p = ((0, none), ⟨none⟩, downstream) :=
  rfl

/-- Helper for C3: a successfully returned action has Accept or Reject set. -/
theorem resolveTerminalAction_ok (fetches : List (Except String SSHAction))
    (action : SSHAction) (a : SSHAction)
    (h : (resolveTerminalAction fetches action).1 = .ok a) :
    a.accept = true ∨ a.reject = true := by
  induction fetches generalizing action with
  | nil =>
    rw [resolveTerminalAction.eq_def] at h
    by_cases hab : (action.accept || action.reject) = true
    · simp only [hab, if_true] at h
      cases h
      exact Bool.or_eq_true_iff.mp hab
    · by_cases hd : action.holdAndDelegate = "" <;> simp [hab, hd] at h
  | cons f rest ih =>
    rw [resolveTerminalAction.eq_def] at h
    by_cases hab : (action.accept || action.reject) = true
    · simp only [hab, if_true] at h
      cases h
      exact Bool.or_eq_true_iff.mp hab
    · by_cases hd : action.holdAndDelegate = ""
      · simp [hab, hd] at h
      · match f with
        | .error e => simp [hab, hd] at h
        | .ok a2 =>
          simp [hab, hd] at h
          exact ih a2 h

/-- C3: `resolveTerminalAction` returns either an action with Accept set or
an action with Reject set, or an error (in the embedding a non-error result
is never nil); and an action lacking Accept, Reject and HoldAndDelegate
yields an error. -/
theorem resolveTerminalAction_terminal (fetches : List (Except String SSHAction))
    (action : SSHAction) :
    (∀ a, (resolveTerminalAction fetches action).1 = .ok a →
      a.accept = true ∨ a.reject = true) ∧
    (action.accept = false → action.reject = false → action.holdAndDelegate = "" →
      ∃ e, (resolveTerminalAction fetches action).1 = .error e) := by
  constructor
  · exact fun a h => resolveTerminalAction_ok fetches action a h
  · intro ha hr hh
    refine ⟨"reached Action that lacked Accept, Reject, and HoldAndDelegate", ?_⟩
    rw [resolveTerminalAction.eq_def]
    simp [ha, hr, hh]

/-- A server whose policy consists of one unconditional Reject rule, used to
exercise the revocation path on a session whose re-evaluated action is no
longer Accept or HoldAndDelegate. -/
def c1Server : Server where
  sshPolicy := some ⟨[some ⟨none, [some ⟨"", "", "", true, []⟩], none,
    some ⟨false, true, "", ""⟩⟩]⟩
  whoIs := fun _ => some (⟨"node1"⟩, ⟨"alice@example.com"⟩)
  isTailscaleIP := fun _ => true
  now := 0
  fetchPublicKeysURL := fun _ => .error "no fetch"

/-- A session as stored at accept time, re-validated against `c1Server`. -/
def c1Session : SSHSessionModel :=
  ⟨"alice", ⟨"100.64.0.1", 2222⟩, ⟨"100.64.0.2", 22⟩, none, "alice"⟩

/-- C1 counterexample: on a concrete revoked session the context error
carries the message `"Access revoked.\n"` (with a trailing newline), so the
bytes written to the client's stderr before the kill are
`"\r\n\r\nAccess revoked.\n\r\n\r\n"`, and the claimed exact sequence
`"\r\n\r\nAccess revoked.\r\n\r\n"` is never written. -/
theorem checkStillValid_message_counterexample :
    checkStillValid c1Server c1Session =
      some (CtxError.userVisible "Access revoked.\n" "context canceled") ∧
    killProcessOnContextDone (CtxError.userVisible "Access revoked.\n" "context canceled") =
      [SessionEvent.stderrWrite "\r\n\r\nAccess revoked.\n\r\n\r\n",
       SessionEvent.killProcess] ∧
    SessionEvent.stderrWrite "\r\n\r\nAccess revoked.\r\n\r\n" ∉
      killProcessOnContextDone (CtxError.userVisible "Access revoked.\n" "context canceled") := by
  refine ⟨by decide, by decide, by decide⟩

/-- C1 amended: when policy revalidation finds the session invalid (the
re-evaluated action is no longer Accept or HoldAndDelegate, the evaluation
errors, or the resolved local user differs), the session context is closed
with the user-visible message `"Access revoked.\n"`, and the teardown writes
exactly `"\r\n\r\nAccess revoked.\n\r\n\r\n"` to the client's stderr before
killing the child process; revalidation leaves the session alone exactly
when the evaluation succeeds with an Accept/HoldAndDelegate action and an
unchanged local user. -/
theorem checkStillValid_revocation (srv : Server) (ss : SSHSessionModel) :
    (∀ e, checkStillValid srv ss = some e →
      e = CtxError.userVisible "Access revoked.\n" "context canceled" ∧
      killProcessOnContextDone e =
        [SessionEvent.stderrWrite "\r\n\r\nAccess revoked.\n\r\n\r\n",
         SessionEvent.killProcess]) ∧
    (checkStillValid srv ss = none ↔
      ((evaluatePolicy srv ss.sshUser ss.src ss.dst ss.pubKey).2.2.2.isNone &&
       actionAllowsOpt (evaluatePolicy srv ss.sshUser ss.src ss.dst ss.pubKey).1 &&
       ((evaluatePolicy srv ss.sshUser ss.src ss.dst ss.pubKey).2.2.1 == ss.localUserName))
        = true) := by
  constructor
  · intro e h
    simp only [checkStillValid] at h
    split at h
    · simp at h
    · cases h
      exact ⟨rfl, by decide⟩
  · simp only [checkStillValid]
    split
    · rename_i hc
      simpa using hc
    · rename_i hc
      simp only [Bool.not_eq_true] at hc
      simp [hc]

/-- C4: policy evaluation returns the result of the first rule that matches,
removing a prefix of non-matching rules does not change the result, and a
policy with no matching rule yields no-match. -/
theorem evalSSHPolicy_first_match (ci : SSHConnInfo) :
    (∀ pre post, (∀ r ∈ pre, matchRuleOk r ci = false) →
      evalSSHPolicy ⟨pre ++ post⟩ ci = evalSSHPolicy ⟨post⟩ ci) ∧
    (∀ r rest a lu, matchRule r ci = .ok (a, lu) →
      evalSSHPolicy ⟨r :: rest⟩ ci = (some a, lu, true)) ∧
    (∀ rules, (∀ r ∈ rules, matchRuleOk r ci = false) →
      evalSSHPolicy ⟨rules⟩ ci = (none, "", false)) := by
  have hstep : ∀ r rest, matchRuleOk r ci = false →
      evalRules (r :: rest) ci = evalRules rest ci := by
    intro r rest hr
    rw [matchRuleOk] at hr
    rw [evalRules]
    split
    · rename_i a lu hm
      rw [hm] at hr
      simp at hr
    · rfl
  refine ⟨?_, ?_, ?_⟩
  · intro pre post hpre
    induction pre with
    | nil => rfl
    | cons r pre ih =>
      show evalRules (r :: (pre ++ post)) ci = evalRules post ci
      rw [hstep r _ (hpre r (List.mem_cons_self r pre))]
      exact ih (fun q hq => hpre q (List.mem_cons_of_mem r hq))
  · intro r rest a lu h
    show evalRules (r :: rest) ci = (some a, lu, true)
    rw [evalRules, h]
  · intro rules hall
    induction rules with
    | nil => rfl
    | cons r rest ih =>
      show evalRules (r :: rest) ci = (none, "", false)
      rw [hstep r _ (hall r (List.mem_cons_self r rest))]
      exact ih (fun q hq => hall q (List.mem_cons_of_mem r hq))

/-- The empty registry satisfies the registry invariant. -/
theorem regInv_empty : RegInv emptyRegistry := by
  refine ⟨?_, ?_, ?_⟩
  · intro k s h
    simp [emptyRegistry] at h
  · intro k s h
    simp [emptyRegistry] at h
  · intro s
    simp [emptyRegistry]

/-- Inserting a session with both keys fresh preserves the registry
invariant. -/
theorem regInv_insert (st : Registry) (ss : SessionIDs) (hinv : RegInv st)
    (hH : st.byH ss.idH = none) (hS : st.byS ss.sharedID = none) :
    RegInv ⟨regUpd st.byH ss.idH (some ss), regUpd st.byS ss.sharedID (some ss)⟩ := by
  obtain ⟨i1, i2, i3⟩ := hinv
  refine ⟨?_, ?_, ?_⟩
  · intro k s hk
    simp only [regUpd] at hk
    split at hk
    · rename_i heq
      cases hk
      exact heq.symm
    · exact i1 k s hk
  · intro k s hk
    simp only [regUpd] at hk
    split at hk
    · rename_i heq
      cases hk
      exact heq.symm
    · exact i2 k s hk
  · intro s
    constructor
    · intro h
      by_cases e1 : s.idH = ss.idH
      · simp only [regUpd, if_pos e1] at h
        cases h
        simp [regUpd]
      · simp only [regUpd, if_neg e1] at h
        have hb := (i3 s).mp h
        by_cases e2 : s.sharedID = ss.sharedID
        · rw [e2, hS] at hb
          simp at hb
        · simp only [regUpd, if_neg e2]
          exact hb
    · intro h
      by_cases e2 : s.sharedID = ss.sharedID
      · simp only [regUpd, if_pos e2] at h
        cases h
        simp [regUpd]
      · simp only [regUpd, if_neg e2] at h
        have hb := (i3 s).mpr h
        by_cases e1 : s.idH = ss.idH
        · rw [e1, hH] at hb
          simp at hb
        · simp only [regUpd, if_neg e1]
          exact hb

/-- Deleting a session whose keys map to nothing else preserves the registry
invariant. -/
theorem regInv_delete (st : Registry) (ss : SessionIDs) (hinv : RegInv st)
    (hH : st.byH ss.idH = none ∨ st.byH ss.idH = some ss)
    (hS : st.byS ss.sharedID = none ∨ st.byS ss.sharedID = some ss) :
    RegInv (endSession st ss) := by
  obtain ⟨i1, i2, i3⟩ := hinv
  refine ⟨?_, ?_, ?_⟩
  · intro k s hk
    simp only [endSession, regUpd] at hk
    split at hk
    · cases hk
    · exact i1 k s hk
  · intro k s hk
    simp only [endSession, regUpd] at hk
    split at hk
    · cases hk
    · exact i2 k s hk
  · intro s
    constructor
    · intro h
      by_cases e1 : s.idH = ss.idH
      · simp only [endSession, regUpd, if_pos e1] at h
        simp at h
      · simp only [endSession, regUpd, if_neg e1] at h
        have hb := (i3 s).mp h
        by_cases e2 : s.sharedID = ss.sharedID
        · rw [e2] at hb
          rcases hS with hS | hS
          · rw [hS] at hb
            simp at hb
          · rw [hS] at hb
            injection hb with hb2
            exact absurd (by rw [hb2]) e1
        · simp only [endSession, regUpd, if_neg e2]
          exact hb
    · intro h
      by_cases e2 : s.sharedID = ss.sharedID
      · simp only [endSession, regUpd, if_pos e2] at h
        simp at h
      · simp only [endSession, regUpd, if_neg e2] at h
        have hb := (i3 s).mpr h
        by_cases e1 : s.idH = ss.idH
        · rw [e1] at hb
          rcases hH with hH | hH
          · rw [hH] at hb
            simp at hb
          · rw [hH] at hb
            injection hb with hb2
            exact absurd (by rw [hb2]) e2
        · simp only [endSession, regUpd, if_neg e1]
          exact hb

/-- C7: registering a session panics exactly when one of its ids is empty or
already registered; a successful registration inserts it into both indices
and preserves the both-or-neither invariant; deregistering removes it from
both indices, preserves the invariant (for a session that is registered or
absent), and deregistering twice is a no-op. -/
theorem startSession_endSession_registry (st : Registry) (ss : SessionIDs)
    (hinv : RegInv st) :
    ((∃ e, startSession st ss = .error e) ↔
      (ss.idH = "" ∨ ss.sharedID = "" ∨
       (st.byH ss.idH).isSome = true ∨ (st.byS ss.sharedID).isSome = true)) ∧
    (∀ st2, startSession st ss = .ok st2 →
      st2.byH ss.idH = some ss ∧ st2.byS ss.sharedID = some ss ∧ RegInv st2) ∧
    ((endSession st ss).byH ss.idH = none ∧ (endSession st ss).byS ss.sharedID = none) ∧
    ((st.byH ss.idH = none ∨ st.byH ss.idH = some ss) →
     (st.byS ss.sharedID = none ∨ st.byS ss.sharedID = some ss) →
      RegInv (endSession st ss)) ∧
    (endSession (endSession st ss) ss = endSession st ss) := by
  refine ⟨?_, ?_, ?_, ?_, ?_⟩
  · by_cases h1 : ss.idH = "" <;> by_cases h2 : ss.sharedID = "" <;>
      by_cases h3 : (st.byH ss.idH).isSome = true <;>
      by_cases h4 : (st.byS ss.sharedID).isSome = true <;>
      simp [startSession, h1, h2, h3, h4]
  · intro st2 h
    by_cases h1 : ss.idH = "" <;> by_cases h2 : ss.sharedID = "" <;>
      by_cases h3 : (st.byH ss.idH).isSome = true <;>
      by_cases h4 : (st.byS ss.sharedID).isSome = true <;>
      simp [startSession, h1, h2, h3, h4] at h
    cases h
    refine ⟨by simp [regUpd], by simp [regUpd], ?_⟩
    exact regInv_insert st ss hinv (Option.not_isSome_iff_eq_none.mp h3)
      (Option.not_isSome_iff_eq_none.mp h4)
  · exact ⟨by simp [endSession, regUpd], by simp [endSession, regUpd]⟩
  · exact fun hH hS => regInv_delete st ss hinv hH hS
  · show Registry.mk _ _ = Registry.mk _ _
    have hH : regUpd (regUpd st.byH ss.idH none) ss.idH none = regUpd st.byH ss.idH none := by
      funext q
      by_cases hq : q = ss.idH <;> simp [regUpd, hq]
    have hS : regUpd (regUpd st.byS ss.sharedID none) ss.sharedID none =
        regUpd st.byS ss.sharedID none := by
      funext q
      by_cases hq : q = ss.sharedID <;> simp [regUpd, hq]
    rw [show endSession st ss = Registry.mk (regUpd st.byH ss.idH none)
      (regUpd st.byS ss.sharedID none) from rfl]
    simp only [endSession]
    rw [hH, hS]

/-- C7 witness: double deregistration of a concrete session from the empty
registry is a no-op, by the registry theorem at that input. -/
theorem startSession_endSession_registry_witness :
    endSession (endSession emptyRegistry ⟨"a", "b"⟩) ⟨"a", "b"⟩ =
      endSession emptyRegistry ⟨"a", "b"⟩ :=
  (startSession_endSession_registry emptyRegistry ⟨"a", "b"⟩ regInv_empty).2.2.2.2

/-- C10: `requiresPubKey` returns false whenever evaluating the policy with
no client public key already yields an Accept action or a non-empty
HoldAndDelegate — unconditionally, so in particular even when some
non-expired rule with a matching user mapping has an identity-matching
principal with a non-empty PubKeys list. -/
theorem requiresPubKey_false_when_none_auth_allowed (srv : Server) (sshUser : String)
    (localAddr remoteAddr : IPPort)
    (h1 : (evaluatePolicy srv sshUser localAddr remoteAddr none).2.2.2 = none)
    (h2 : actionAllowsOpt (evaluatePolicy srv sshUser localAddr remoteAddr none).1 = true) :
    requiresPubKey srv sshUser localAddr remoteAddr = false := by
  rcases hpol : srv.sshPolicy with _ | pol
  · simp [requiresPubKey, hpol]
  · simp [requiresPubKey, hpol, h1, h2]

/-- A policy whose first rule accepts `alice` with no key constraint and
whose second rule (never reached by an Accept-bearing evaluation) declares a
public-key requirement. -/
def c10Server : Server where
  sshPolicy := some ⟨[
    some ⟨none, [some ⟨"", "", "", true, []⟩], some [("alice", "=")],
      some ⟨true, false, "", ""⟩⟩,
    some ⟨none, [some ⟨"", "", "", true, ["ssh-ed25519 QUJD"]⟩], some [("alice", "alice")],
      some ⟨true, false, "", ""⟩⟩]⟩
  whoIs := fun _ => some (⟨"node1"⟩, ⟨"alice@example.com"⟩)
  isTailscaleIP := fun _ => true
  now := 0
  fetchPublicKeysURL := fun _ => .error "no fetch"

/-- The conn info `evaluatePolicy` builds for the witness connection. -/
def c10ConnInfo : SSHConnInfo where
  now := 0
  fetchPublicKeysURL := some c10Server.fetchPublicKeysURL
  sshUser := "alice"
  src := ⟨"100.64.0.1", 1⟩
  dst := ⟨"100.64.0.2", 22⟩
  node := some ⟨"node1"⟩
  uprof := some ⟨"alice@example.com"⟩
  pubKey := none

/-- C10 witness: on `c10Server` the keyless evaluation accepts, so "none"
authentication is permitted (`requiresPubKey` is false) even though the
second rule matches the caller's identity and declares a non-empty PubKeys
list. -/
theorem requiresPubKey_false_witness :
    requiresPubKey c10Server "alice" ⟨"100.64.0.2", 22⟩ ⟨"100.64.0.1", 1⟩ = false ∧
    ruleNeedsPubKey c10ConnInfo "alice"
      (some ⟨none, [some ⟨"", "", "", true, ["ssh-ed25519 QUJD"]⟩], some [("alice", "alice")],
        some ⟨true, false, "", ""⟩⟩) = true :=
  ⟨requiresPubKey_false_when_none_auth_allowed c10Server "alice" ⟨"100.64.0.2", 22⟩
      ⟨"100.64.0.1", 1⟩ rfl rfl,
    rfl⟩

/-- C9: when a cache lookup finds more than 50 entries, the opportunistic
cleanup removes every entry whose timestamp is before `now` plus ten cache
durations — a time in the future — so whenever no entry's timestamp is in
the future (they never are: entries are stamped with the write-time `now`),
the whole cache is emptied, fresh entries included, and the looked-up URL
itself misses. -/
theorem fetchPublicKeysURLCached_cleanup_deletes_all (st : CacheState) (url : String)
    (hlen : st.cache.length > 50) :
    (fetchPublicKeysURLCached st url).2.cache =
      st.cache.filter (fun kv => !(kv.2.atTime < st.now + pubKeyCacheDuration * 10 : Bool)) ∧
    ((∀ kv ∈ st.cache, kv.2.atTime ≤ st.now) →
      (fetchPublicKeysURLCached st url).2.cache = [] ∧
      (fetchPublicKeysURLCached st url).1.2 = false) := by
  have hm : (fetchPublicKeysURLCached st url).2.cache =
      st.cache.filter (fun kv => !(kv.2.atTime < st.now + pubKeyCacheDuration * 10 : Bool)) := by
    simp only [fetchPublicKeysURLCached, hlen, if_true]
    split <;> rfl
  refine ⟨hm, ?_⟩
  intro hall
  have hnil : st.cache.filter
      (fun kv => !(kv.2.atTime < st.now + pubKeyCacheDuration * 10 : Bool)) = [] := by
    refine List.filter_eq_nil_iff.mpr ?_
    intro kv hkv
    have hle := hall kv hkv
    simp only [pubKeyCacheDuration, Bool.not_eq_true', decide_eq_false_iff_not, not_not]
    linarith
  refine ⟨hm.trans hnil, ?_⟩
  simp only [fetchPublicKeysURLCached, hlen, if_true, hnil, lookupAssoc]

/-- A cache of 51 entries, all stamped in the past, for the C9 witness. -/
def c9Cache : CacheState :=
  ⟨(List.range 51).map (fun i => ("u" ++ toString i, ⟨["k"], "", 0⟩)), 5⟩

/-- C9 witness: on a concrete 51-entry cache holding only past-stamped
entries, a lookup empties the whole cache and misses, by the cleanup theorem
at that input. -/
theorem fetchPublicKeysURLCached_cleanup_witness :
    (fetchPublicKeysURLCached c9Cache "u0").2.cache = [] ∧
    (fetchPublicKeysURLCached c9Cache "u0").1.2 = false :=
  (fetchPublicKeysURLCached_cleanup_deletes_all c9Cache "u0" (by decide)).2 (by decide)

/-- The claim's reading of an authorized-key line match: the line's first
token (up to the first space) equals the client key's type, and the base64
decoding of the second token byte-equals the client key's wire marshaling.
Unlike the source's `pubKeyMatchesAuthorizedKey` it does not separately
require the decoded bytes to be non-empty. -/
def claimKeyLineMatches (k : PublicKey) (line : String) : Bool :=
  match goCut line " " with
  | (tok1, rest, true) =>
    tok1 == k.keyType && base64DecodeLenient (goCut rest " ").1 == k.marshal
  | (_, _, false) => false

/-- For a client key with a non-empty wire marshaling (every real SSH public
key marshals to a non-empty blob), the source's line matcher coincides with
the claim's reading. -/
theorem pubKeyMatches_eq_claim (k : PublicKey) (line : String) (hm : k.marshal ≠ []) :
    pubKeyMatchesAuthorizedKey k line = claimKeyLineMatches k line := by
  rw [pubKeyMatchesAuthorizedKey, claimKeyLineMatches]
  rcases hgc : goCut line " " with ⟨t1, rest, found⟩
  cases found
  · rfl
  · by_cases ht : k.keyType = t1
    · simp only [ht, bne_self_eq_false, Bool.false_eq_true, if_false, beq_self_eq_true,
        Bool.true_and]
      rcases hdm : (base64DecodeLenient (goCut rest " ").1 == k.marshal) with _ | _
      · simp [hdm]
      · have hde : base64DecodeLenient (goCut rest " ").1 = k.marshal := eq_of_beq hdm
        simp [hde, List.isEmpty_iff, hm]
    · have hbne : (k.keyType != t1) = true := by
        simp [bne, ht]
      have hbeq : (t1 == k.keyType) = false := by
        simp [Ne.symm ht]
      simp [hbne, hbeq]

/-- C5: the key predicate holds iff the principal's key list is empty, or a
client key is present and some resolved line has first token equal to the
key's type and a second token whose base64 decoding byte-equals the key's
wire marshaling; a singleton `https://` list is resolved through the
fetcher, while a list of two or more entries is used literally. Stated for
connections whose presented key (if any) has a non-empty marshaling, which
every real SSH key has. -/
theorem principalMatchesPubKey_spec (p : SSHPrincipal) (ci : SSHConnInfo)
    (hm : ∀ k, ci.pubKey = some k → k.marshal ≠ []) :
    (principalMatchesPubKey p ci = true ↔
      (p.pubKeys = [] ∨
       ∃ k, ci.pubKey = some k ∧
         ∃ line ∈ (resolvePubKeys p.pubKeys ci.fetchPublicKeysURL).getD [],
           claimKeyLineMatches k line = true)) ∧
    (∀ u f, p.pubKeys = [u] → goHasPrefix u "https://" = true →
      ci.fetchPublicKeysURL = some f →
      resolvePubKeys p.pubKeys ci.fetchPublicKeysURL = (f u).toOption) ∧
    (2 ≤ p.pubKeys.length → resolvePubKeys p.pubKeys ci.fetchPublicKeysURL = some p.pubKeys) := by
  refine ⟨?_, ?_, ?_⟩
  · rw [principalMatchesPubKey]
    by_cases he : p.pubKeys.isEmpty = true
    · simp [he, List.isEmpty_iff.mp he]
    · have hne : p.pubKeys ≠ [] := by
        simpa [List.isEmpty_iff] using he
      simp only [he, Bool.false_eq_true, if_false]
      rcases hk : ci.pubKey with _ | k
      · simp [hne]
      · rcases hr : resolvePubKeys p.pubKeys ci.fetchPublicKeysURL with _ | keys
        · simp [hne, hk, hr]
        · simp only [hne, false_or, hk, hr, Option.getD_some, Option.some.injEq]
          rw [List.any_eq_true]
          constructor
          · rintro ⟨line, hline, hmatch⟩
            exact ⟨k, rfl, line, hline,
              (pubKeyMatches_eq_claim k line (hm k hk)) ▸ hmatch⟩
          · rintro ⟨k2, hk2, line, hline, hmatch⟩
            cases hk2
            exact ⟨line, hline,
              (pubKeyMatches_eq_claim k line (hm k hk)).symm ▸ hmatch⟩
  · intro u f hpk hu hf
    rw [hpk, hf]
    simp [resolvePubKeys, hu]
  · intro h2
    rcases hpk : p.pubKeys with _ | ⟨u, _ | ⟨v, rest⟩⟩
    · rw [hpk] at h2
      simp at h2
    · rw [hpk] at h2
      simp at h2
    · rfl

/-- The principal for the C5 witness: one literal authorized-key line. -/
def c5Principal : SSHPrincipal := ⟨"", "", "", true, ["ssh-ed25519 QUJD comment"]⟩

/-- The connection for the C5 witness: the client presented an
ed25519-typed key whose wire marshaling is the decoding of `QUJD`. -/
def c5ConnInfo : SSHConnInfo where
  now := 0
  fetchPublicKeysURL := none
  sshUser := "alice"
  src := ⟨"100.64.0.1", 1⟩
  dst := ⟨"100.64.0.2", 22⟩
  node := none
  uprof := none
  pubKey := some ⟨"ssh-ed25519", [65, 66, 67]⟩

/-- C5 witness: the key-predicate characterization at a concrete principal
and connection, by the key-predicate theorem at that input. -/
theorem principalMatchesPubKey_spec_witness :
    principalMatchesPubKey c5Principal c5ConnInfo = true ↔
      (c5Principal.pubKeys = [] ∨
       ∃ k, c5ConnInfo.pubKey = some k ∧
         ∃ line ∈ (resolvePubKeys c5Principal.pubKeys c5ConnInfo.fetchPublicKeysURL).getD [],
           claimKeyLineMatches k line = true) :=
  (principalMatchesPubKey_spec c5Principal c5ConnInfo
    (fun k hk => by
      cases hk
      decide)).1

/-- Looking up a key just written by `mapSet` finds the written entry. -/
theorem lookupAssoc_mapSetAssoc_self (m : List (String × PubKeyCacheEntry)) (k : String)
    (v : PubKeyCacheEntry) : lookupAssoc (mapSetAssoc m k v) k = some v := by
  induction m with
  | nil => simp [mapSetAssoc, lookupAssoc]
  | cons kv rest ih =>
    rcases kv with ⟨q, w⟩
    by_cases hq : q = k
    · simp [mapSetAssoc, hq, lookupAssoc]
    · simp [mapSetAssoc, hq, lookupAssoc, ih]

/-- The cached lookup never changes the clock. -/
theorem fetchPublicKeysURLCached_now (st : CacheState) (url : String) :
    (fetchPublicKeysURLCached st url).2.now = st.now := by
  simp only [fetchPublicKeysURLCached]
  split <;> rfl

/-- C6 amended: a fetch that reaches the network and receives a status other
than 200 and 304 returns an error yet still writes a fresh cache entry for
the URL (current timestamp, empty lines); a subsequent call within the
15-second empty-entry TTL is served from that cache entry without
re-fetching, provided the cache then holds at most 50 entries (with more,
the opportunistic cleanup of C9 evicts the entry first and the call
re-fetches). -/
theorem fetchPublicKeysURL_error_status (st : CacheState) (url : String) (res : HTTPResponse)
    (hurl : goHasPrefix url "https://" = true)
    (hmiss : (fetchPublicKeysURLCached st url).1.2 = false)
    (h200 : res.status ≠ 200) (h304 : res.status ≠ 304) :
    ((fetchPublicKeysURL st url (.ok res)).1.err = some "unexpected status" ∧
     (fetchPublicKeysURL st url (.ok res)).1.fetched = true ∧
     lookupAssoc (fetchPublicKeysURL st url (.ok res)).2.cache url = some ⟨[], "", st.now⟩ ∧
     (fetchPublicKeysURL st url (.ok res)).2.now = st.now) ∧
    (∀ (dt : Time) (resp2 : Except String HTTPResponse), dt < pubKeyCacheEmptyDuration →
      (fetchPublicKeysURL st url (.ok res)).2.cache.length ≤ 50 →
      fetchPublicKeysURL ⟨(fetchPublicKeysURL st url (.ok res)).2.cache, st.now + dt⟩ url resp2 =
        (⟨[], none, false⟩,
         ⟨(fetchPublicKeysURL st url (.ok res)).2.cache, st.now + dt⟩)) := by
  rcases hfc : fetchPublicKeysURLCached st url with ⟨⟨ce, ok⟩, st1⟩
  have hok : ok = false := by
    have := hmiss
    rw [hfc] at this
    exact this
  subst hok
  have hnow : st1.now = st.now := by
    have := fetchPublicKeysURLCached_now st url
    rw [hfc] at this
    exact this
  have hfu : fetchPublicKeysURL st url (.ok res) =
      (⟨[], some "unexpected status", true⟩,
       ⟨mapSetAssoc st1.cache url ⟨[], "", st1.now⟩, st1.now⟩) := by
    simp only [fetchPublicKeysURL, hurl, Bool.not_true, Bool.false_eq_true, if_false, hfc,
      h200, h304, if_neg]
  constructor
  · rw [hfu]
    refine ⟨rfl, rfl, ?_, hnow⟩
    rw [lookupAssoc_mapSetAssoc_self, hnow]
  · intro dt resp2 hdt hlen
    rw [hfu] at hlen ⊢
    have hgt : ¬((mapSetAssoc st1.cache url ⟨[], "", st1.now⟩).length > 50) := by
      simp only at hlen
      omega
    have hfresh : st.now + dt - st1.now < pubKeyCacheEmptyDuration := by
      rw [hnow]
      simp only [pubKeyCacheEmptyDuration] at hdt ⊢
      linarith
    have hcached2 : fetchPublicKeysURLCached
        ⟨mapSetAssoc st1.cache url ⟨[], "", st1.now⟩, st.now + dt⟩ url =
        ((⟨[], "", st1.now⟩, true), ⟨mapSetAssoc st1.cache url ⟨[], "", st1.now⟩, st.now + dt⟩) := by
      simp only [fetchPublicKeysURLCached, hgt, if_false, lookupAssoc_mapSetAssoc_self]
      simp [hfresh]
    simp only [fetchPublicKeysURL, hurl, Bool.not_true, Bool.false_eq_true, if_false, hcached2,
      if_true]

/-- A cache already holding 50 entries, about to receive a 51st from an
error response, for the C6 counterexample. -/
def c6Cache : CacheState :=
  ⟨(List.range 50).map (fun i => ("u" ++ toString i, ⟨["k"], "", 0⟩)), 100⟩

/-- The state after fetching `https://t` through `c6Cache` and receiving a
500 response: 51 entries, the new one stamped at time 100. -/
def c6State1 : CacheState := (fetchPublicKeysURL c6Cache "https://t" (.ok ⟨500, "", ""⟩)).2

/-- C6 counterexample: after an error-status fetch writes its cache entry,
a call one second later — well inside the 15-second empty-entry TTL — is
not served from the cache: the 51-entry cleanup evicts everything first, so
the call issues a fresh HTTP request, contradicting the claim that
subsequent calls within the TTL are served from cache and do not
re-fetch. -/
theorem fetchPublicKeysURL_ttl_counterexample :
    (fetchPublicKeysURL c6Cache "https://t" (.ok ⟨500, "", ""⟩)).1.err.isSome = true ∧
    lookupAssoc c6State1.cache "https://t" = some ⟨[], "", 100⟩ ∧
    ((101 : Int) - 100 < pubKeyCacheEmptyDuration) ∧
    (fetchPublicKeysURL ⟨c6State1.cache, 101⟩ "https://t" (.ok ⟨200, "zz", ""⟩)).1.fetched
      = true := by
  refine ⟨by decide, by decide, by decide, by decide⟩

/-- C6 witness: the error-status behaviour at a concrete empty cache, by the
error-status theorem at that input. -/
theorem fetchPublicKeysURL_error_status_witness :
    ((fetchPublicKeysURL ⟨[], 0⟩ "https://x" (.ok ⟨500, "", ""⟩)).1.err =
        some "unexpected status" ∧
     (fetchPublicKeysURL ⟨[], 0⟩ "https://x" (.ok ⟨500, "", ""⟩)).1.fetched = true ∧
     lookupAssoc (fetchPublicKeysURL ⟨[], 0⟩ "https://x" (.ok ⟨500, "", ""⟩)).2.cache "https://x" =
       some ⟨[], "", (0 : Int)⟩ ∧
     (fetchPublicKeysURL ⟨[], 0⟩ "https://x" (.ok ⟨500, "", ""⟩)).2.now = (0 : Int)) :=
  (fetchPublicKeysURL_error_status ⟨[], 0⟩ "https://x" ⟨500, "", ""⟩ (by decide) (by decide)
    (by decide) (by decide)).1

end Tailssh
